import Mathlib

/-!
Shallow embedding of the `ignited` initramfs init program (Rust) and proofs
about it.  Each Rust function that a claim depends on is translated into an
executable Lean definition; machine integers become `Nat`/`Int`, fallible
code returns `Option`/`Except`, and stateful code passes its state
explicitly.  External collaborators (the `uuid` crate's string parser, the
`goglob` pattern engine, the kernel) are modelled at their interface.
-/

set_option maxRecDepth 4096

namespace Ignited

/-! ## Early logging: `src/early_logging/mod.rs` -/

/-- `VerbosityLevel` from `early_logging/mod.rs`: `Debug=7 … Crit=2`. -/
inductive VerbosityLevel where
  | debug
  | info
  | notice
  | warn
  | err
  | crit
  deriving DecidableEq, Repr

/-- The `repr(u8)` discriminant of each level; Rust's derived `Ord`
compares these values. -/
def VerbosityLevel.toU8 : VerbosityLevel → Nat
  | .debug => 7
  | .info => 6
  | .notice => 5
  | .warn => 4
  | .err => 3
  | .crit => 2

/-- `impl Default for VerbosityLevel`: the default threshold is `Info`. -/
def VerbosityLevel.defaultLevel : VerbosityLevel := .info

/-- `TryFrom<&str> for VerbosityLevel`. -/
def VerbosityLevel.tryFrom (level : String) : Option VerbosityLevel :=
  if level = "debug" then some .debug
  else if level = "info" then some .info
  else if level = "notice" then some .notice
  else if level = "warn" ∨ level = "warning" then some .warn
  else if level = "err" ∨ level = "error" then some .err
  else none

/-- `PROGRAM_NAME` from `main.rs`. -/
def PROGRAM_NAME : String := "ignited"

/-- The line written by `KConsole::println` for one accepted entry:
`format!("<{}>{}: {}\n", req_level as u8, PROGRAM_NAME, args)`. -/
def kmsgLine (reqLevel : VerbosityLevel) (args : String) : String :=
  "<" ++ toString reqLevel.toU8 ++ ">" ++ PROGRAM_NAME ++ ": " ++ args ++ "\n"

/-- `KConsole` from `early_logging/mod.rs`: the `/dev/kmsg` handle is
modelled as the list of lines written to it so far, in order. -/
structure KConsole where
  written : List String
  currentLevel : VerbosityLevel
  deriving DecidableEq, Repr

/-- `KConsole::println`: the entry is written iff its level is `<=` the
threshold under the derived (discriminant) order. -/
def KConsole.println (k : KConsole) (reqLevel : VerbosityLevel) (args : String) : KConsole :=
  if reqLevel.toU8 ≤ k.currentLevel.toU8 then
    { k with written := k.written ++ [kmsgLine reqLevel args] }
  else
    k

/-- `KConsole::change_verbosity`. -/
def KConsole.changeVerbosity (k : KConsole) (newLevel : VerbosityLevel) : KConsole :=
  { k with currentLevel := newLevel }

/-! ## Deferred log buffer: `src/early_logging/buf.rs` -/

/-- `KmsgBufEntry`. -/
structure KmsgBufEntry where
  level : VerbosityLevel
  args : String
  deriving DecidableEq, Repr

/-- `KmsgBuf`: buffers entries destined to `/dev/kmsg` before the global
threshold is known. -/
structure KmsgBuf where
  innerCon : KConsole
  innerBuf : List KmsgBufEntry
  flushed : Bool
  deriving DecidableEq, Repr

/-- `KmsgBuf::new`. -/
def KmsgBuf.new (kcon : KConsole) : KmsgBuf :=
  { innerCon := kcon, innerBuf := [], flushed := false }

/-- `KmsgBuf::_println`: dispatches to the level-specific macro, each of
which calls `_print_message_ln`, i.e. `KConsole::println`, with the same
level. -/
def KmsgBuf.printlnDispatch (kcon : KConsole) (level : VerbosityLevel) (args : String) :
    KConsole :=
  kcon.println level args

/-- `KmsgBuf::_kany`: forward directly once flushed, otherwise queue. -/
def KmsgBuf.kany (b : KmsgBuf) (level : VerbosityLevel) (args : String) : KmsgBuf :=
  if b.flushed then
    { b with innerCon := KmsgBuf.printlnDispatch b.innerCon level args }
  else
    { b with innerBuf := b.innerBuf ++ [{ level := level, args := args }] }

/-- `KmsgBuf::kdebug`. -/
def KmsgBuf.kdebug (b : KmsgBuf) (args : String) : KmsgBuf :=
  b.kany .debug args

/-- `KmsgBuf::kwarn`. -/
def KmsgBuf.kwarn (b : KmsgBuf) (args : String) : KmsgBuf :=
  b.kany .warn args

/-- `KmsgBuf::flush_with_level`: set the threshold, mark flushed, then
drain the queue in FIFO order through `_print_message_ln`. -/
def KmsgBuf.flushWithLevel (b : KmsgBuf) (level : VerbosityLevel) : KmsgBuf :=
  { innerCon :=
      b.innerBuf.foldl (fun k e => k.println e.level e.args) (b.innerCon.changeVerbosity level),
    innerBuf := [],
    flushed := true }

/-! ## Command-line verbosity parsing: `src/config.rs` (`CmdlineArgs::parse_inner`
and its verbosity handlers).  Only the four verbosity-setting keys touch the
`verbosity_level` variable of `parse_inner`; every other key's handler leaves
it unchanged, so the evolution of that variable is a fold over the tokens. -/

/-- `str::split_once(c)`: split at the first occurrence of `c`, if any. -/
def splitOnceChar (c : Char) (s : String) : Option (String × String) :=
  match s.splitOn (String.singleton c) with
  | [] => none
  | [_] => none
  | p :: rest => some (p, String.intercalate (String.singleton c) rest)

/-- The `(arg_key, arg_value)` decomposition performed on each token of
`parse_inner`'s loop. -/
def cmdlineKeyValue (arg : String) : String × Option String :=
  match splitOnceChar '=' arg with
  | some (ak, av) => (ak, some av)
  | none => (arg, none)

/-- `Option::get_or_insert` (restricted to its effect on the option value). -/
def optGetOrInsert (st : Option VerbosityLevel) (l : VerbosityLevel) : Option VerbosityLevel :=
  match st with
  | some x => some x
  | none => some l

/-- `CmdlineArgs::parse_ignited_log`, projected to its effect on the
`verbosity_level` variable (the buffered diagnostics do not feed back into
the level). -/
def parseIgnitedLogLevel (st : Option VerbosityLevel) (argValue : Option String)
    (compat : Bool) : Option VerbosityLevel :=
  match (if compat then argValue.map (fun s => (s.splitOn ",").filter (fun v => !v.isEmpty))
         else argValue.map (fun s => [s])) with
  | none => st
  | some iterArg =>
      iterArg.foldl (fun s v =>
        match VerbosityLevel.tryFrom v with
        | some level => optGetOrInsert s level
        | none => s) st

/-- One iteration of `parse_inner`'s token loop, projected to its effect on
the `verbosity_level` variable.  The keys `root`, `resume`, `init`,
`rootfstype`, `rootflags`, `ro`, `rw`, `rd.luks.*` and module parameters
never touch `verbosity_level` in the source, hence the final catch-all. -/
def stepVerbosity (st : Option VerbosityLevel) (arg : String) : Option VerbosityLevel :=
  if (cmdlineKeyValue arg).1 = "ignited.log" then
    parseIgnitedLogLevel st (cmdlineKeyValue arg).2 false
  else if (cmdlineKeyValue arg).1 = "booster.log" then
    parseIgnitedLogLevel st (cmdlineKeyValue arg).2 true
  else if (cmdlineKeyValue arg).1 = "booster.debug" then optGetOrInsert st .debug
  else if (cmdlineKeyValue arg).1 = "quiet" then optGetOrInsert st .err
  else st

/-- The threshold committed by `parse_inner` at
`kmsg_buf.flush_with_level(verbosity_level.unwrap_or_default())`. -/
def committedVerbosity (tokens : List String) : VerbosityLevel :=
  (tokens.foldl stepVerbosity none).getD VerbosityLevel.defaultLevel

/-- Spec-side definition (from the claim's words, for the refinement): the
valid level carried by a single token — `quiet` counts as `Err`,
`booster.debug` as `Debug`, a `booster.log` list carries its first valid
entry. -/
def specTokenLevel (arg : String) : Option VerbosityLevel :=
  if (cmdlineKeyValue arg).1 = "ignited.log" then
    match (cmdlineKeyValue arg).2 with
    | some s => VerbosityLevel.tryFrom s
    | none => none
  else if (cmdlineKeyValue arg).1 = "booster.log" then
    match (cmdlineKeyValue arg).2 with
    | some s => ((s.splitOn ",").filterMap VerbosityLevel.tryFrom).head?
    | none => none
  else if (cmdlineKeyValue arg).1 = "booster.debug" then some .debug
  else if (cmdlineKeyValue arg).1 = "quiet" then some .err
  else none

/-! ## Module aliases: `src/module.rs` (`ModAlias`, `ModAliases`).
The `goglob` pattern engine is an external crate; a compiled pattern is
modelled by its denotation, a boolean matching function on alias strings. -/

/-- `ModAlias`: a glob pattern (modelled by its matching function) plus the
kernel module it maps to. -/
structure ModAlias where
  patternMatches : String → Bool
  module : String

/-- `ModAlias::_match_alias`: the associated module if the pattern matches. -/
def ModAlias.matchAlias (a : ModAlias) (alias_ : String) : Option String :=
  if a.patternMatches alias_ then some a.module else none

/-- `ModAliases`: the alias table plus the concurrent set
(`bookkeeping_processed`) of alias strings already dispatched.  The
`DashSet` is modelled by the list of its elements; `DashSet::insert`
returns whether the element was newly inserted. -/
structure ModAliases where
  bookkeepingProcessed : List String
  aliases : List ModAlias

/-- `ModAliases::_match_alias`: on first sight of an alias string, append
every matching module (in table order) to `modules`; afterwards a no-op.
Returns the updated container state and the updated `modules` vector. -/
def ModAliases.matchAlias (ma : ModAliases) (alias_ : String) (modules : List String) :
    ModAliases × List String :=
  if ma.bookkeepingProcessed.contains alias_ then
    (ma, modules)
  else
    ({ ma with bookkeepingProcessed := alias_ :: ma.bookkeepingProcessed },
      modules ++ ma.aliases.foldl (fun acc a =>
        match a.matchAlias alias_ with
        | some m => acc ++ [m]
        | none => acc) [])

/-- The modules whose pattern matches `alias_`, in table order. -/
def ModAliases.matchingModules (ma : ModAliases) (alias_ : String) : List String :=
  ma.aliases.filterMap (fun a => a.matchAlias alias_)

/-! ## Partition sources: `src/mount.rs` (`PartitionSourceBuilder`).
Strings are processed at the `List Char` level so that closed instances
evaluate by `decide`.  The `uuid` crate's `Uuid::from_str` is an external
collaborator; it is modelled for the textual formats it accepts (simple,
hyphenated, braced, URN), a UUID being its list of 32 nibble values. -/

/-- `str::strip_prefix` on character lists. -/
def stripPrefixChars : List Char → List Char → Option (List Char)
  | [], s => some s
  | _ :: _, [] => none
  | p :: ps, c :: cs => if p = c then stripPrefixChars ps cs else none

/-- `str::strip_suffix` on character lists. -/
def stripSuffixChars (p s : List Char) : Option (List Char) :=
  (stripPrefixChars p.reverse s.reverse).map List.reverse

/-- `str::split_once(pat)` on character lists: split around the first
occurrence of `pat`. -/
def listSplitOnce (pat : List Char) : List Char → Option (List Char × List Char)
  | [] => (stripPrefixChars pat []).map (fun r => ([], r))
  | c :: cs =>
      match stripPrefixChars pat (c :: cs) with
      | some r => some ([], r)
      | none => (listSplitOnce pat cs).map (fun p => (c :: p.1, p.2))

/-- Value of one hexadecimal digit (the `uuid` crate accepts both cases). -/
def hexVal (c : Char) : Option Nat :=
  if '0' ≤ c ∧ c ≤ '9' then some (c.toNat - 48)
  else if 'a' ≤ c ∧ c ≤ 'f' then some (c.toNat - 87)
  else if 'A' ≤ c ∧ c ≤ 'F' then some (c.toNat - 55)
  else none

/-- Simple UUID format: exactly 32 hexadecimal digits. -/
def parseSimpleUuid (cs : List Char) : Option (List Nat) :=
  if cs.length = 32 then cs.mapM hexVal else none

/-- Hyphenated UUID format: `8-4-4-4-12` hexadecimal digits. -/
def parseHyphenatedUuid (cs : List Char) : Option (List Nat) :=
  if cs.length = 36 ∧ cs.get? 8 = some '-' ∧ cs.get? 13 = some '-' ∧
      cs.get? 18 = some '-' ∧ cs.get? 23 = some '-' then
    (cs.take 8 ++ ((cs.drop 9).take 4 ++ ((cs.drop 14).take 4 ++
      ((cs.drop 19).take 4 ++ cs.drop 24)))).mapM hexVal
  else none

/-- Model of the external `uuid::Uuid::from_str`: accepts the simple,
hyphenated, URN-prefixed and braced textual formats. -/
def uuidTryParse (cs : List Char) : Option (List Nat) :=
  if cs.length = 32 then parseSimpleUuid cs
  else if cs.length = 36 then parseHyphenatedUuid cs
  else
    match stripPrefixChars "urn:uuid:".data cs with
    | some rest => parseHyphenatedUuid rest
    | none =>
        match cs with
        | '{' :: rest =>
            if rest.getLast? = some '}' then parseHyphenatedUuid rest.dropLast else none
        | _ => none

/-- `PartitionSourceBuilder::uuid_from_str`: strip one symmetric pair of
double quotes, then parse. -/
def uuidFromStr (q : List Char) : Option (List Nat) :=
  uuidTryParse
    (match stripPrefixChars ['"'] q with
     | some u =>
         match stripSuffixChars ['"'] u with
         | some v => v
         | none => q
     | none => q)

/-- `i64::from_str`: optional sign, at least one digit, all digits, in the
`i64` range. -/
def i64FromStr (s : List Char) : Option Int :=
  let signDigits : Int × List Char :=
    match s with
    | '+' :: rest => (1, rest)
    | '-' :: rest => (-1, rest)
    | rest => (1, rest)
  if signDigits.2 = [] then none
  else
    match signDigits.2.mapM (fun c =>
        if '0' ≤ c ∧ c ≤ '9' then some (c.toNat - 48) else none) with
    | none => none
    | some ds =>
        let v : Int := signDigits.1 * (ds.foldl (fun a d => a * 10 + d) 0 : Nat)
        if -(2 ^ 63) ≤ v ∧ v ≤ 2 ^ 63 - 1 then some v else none

/-- `PartitionSourceBuilder` from `mount.rs`. -/
inductive PartitionSourceBuilder where
  | uuid (u : List Nat)
  | label (l : String)
  | partUuid (u : List Nat)
  | partUuidPartnroff (u : List Nat) (off : Int)
  | partType (t : List Nat) (disk : List Nat)
  | partLabel (l : String)
  | rawDevice (d : String)
  deriving DecidableEq, Repr

namespace PartitionSourceBuilder

/-- `PartitionSourceBuilder::parse_uuid`. -/
def parseUuid (cs : List Char) : Option PartitionSourceBuilder :=
  (uuidFromStr cs).map .uuid

/-- `PartitionSourceBuilder::parse_partuuid`. -/
def parsePartuuid (cs : List Char) : Option PartitionSourceBuilder :=
  (uuidFromStr cs).map .partUuid

/-- `PartitionSourceBuilder::parse_partuuid_partnroff`. -/
def parsePartuuidPartnroff (cs : List Char) : Option PartitionSourceBuilder :=
  match listSplitOnce "/PARTNROFF=".data cs with
  | some (partuuid, partnroff) =>
      match i64FromStr partnroff with
      | none => none
      | some off => (uuidFromStr partuuid).map (fun u => .partUuidPartnroff u off)
  | none => parsePartuuid cs

/-- `PartitionSourceBuilder::_parse`, translated branch for branch.  Note
that the source strips the `/dev/disk/by-…` prefixes without a trailing
slash. -/
def parse (root : String) : Option PartitionSourceBuilder :=
  match (stripPrefixChars "UUID=".data root.data).orElse
      (fun _ => stripPrefixChars "/dev/disk/by-uuid".data root.data) with
  | some uuidCs => parseUuid uuidCs
  | none =>
  match (stripPrefixChars "LABEL=".data root.data).orElse
      (fun _ => stripPrefixChars "/dev/disk/by-label".data root.data) with
  | some labelCs => some (.label (String.mk labelCs))
  | none =>
  match stripPrefixChars "PARTUUID=".data root.data with
  | some partuuidPartnroff => parsePartuuidPartnroff partuuidPartnroff
  | none =>
  match stripPrefixChars "/dev/disk/by-partuuid".data root.data with
  | some partuuid => parsePartuuid partuuid
  | none =>
  match (stripPrefixChars "PARTLABEL=".data root.data).orElse
      (fun _ => stripPrefixChars "/dev/disk/by-partlabel".data root.data) with
  | some partlabelCs => some (.partLabel (String.mk partlabelCs))
  | none =>
  if (stripPrefixChars "/dev/".data root.data).isSome then some (.rawDevice root) else none

end PartitionSourceBuilder

/-! ## Root mount options: `src/mount.rs` (`RootOptsBuilder`).
`nix::mount::MsFlags` is a bitset; the bits touched by `_add_opts` and
`try_build` are modelled as one boolean field each. -/

/-- The `MsFlags` bits manipulated by `RootOptsBuilder`. -/
structure MsFlags where
  dirsync : Bool := false
  lazytime : Bool := false
  noatime : Bool := false
  nodev : Bool := false
  nodiratime : Bool := false
  noexec : Bool := false
  nosuid : Bool := false
  relatime : Bool := false
  silent : Bool := false
  strictatime : Bool := false
  synchronous : Bool := false
  rdonly : Bool := false
  deriving DecidableEq, Repr

/-- `MsFlags::empty()`. -/
def MsFlags.emptyFlags : MsFlags := {}

/-- `RootOpts` from `mount.rs`. -/
structure RootOpts where
  source : String
  fstype : String
  flags : MsFlags
  options : Option String
  deriving DecidableEq, Repr

/-- `RootOptsBuilder` from `mount.rs`. -/
structure RootOptsBuilder where
  source : Option PartitionSourceBuilder
  fstype : Option String
  rw : Bool
  flags : MsFlags
  options : Option String
  deriving DecidableEq, Repr

/-- `impl Default for RootOptsBuilder`. -/
def RootOptsBuilder.defaultBuilder : RootOptsBuilder :=
  { source := none, fstype := none, rw := false, flags := MsFlags.emptyFlags, options := none }

/-- One iteration of `_add_opts`'s loop: the `match opt` arm for a single
comma-separated token, in source order. -/
def RootOptsBuilder.applyOpt (b : RootOptsBuilder) (opt : String) : RootOptsBuilder :=
  if opt = "dirsync" then { b with flags := { b.flags with dirsync := true } }
  else if opt = "nolazytime" then { b with flags := { b.flags with lazytime := false } }
  else if opt = "lazytime" then { b with flags := { b.flags with lazytime := true } }
  else if opt = "noatime" then { b with flags := { b.flags with noatime := true } }
  else if opt = "atime" then { b with flags := { b.flags with noatime := false } }
  else if opt = "nodev" then { b with flags := { b.flags with nodev := true } }
  else if opt = "dev" then { b with flags := { b.flags with nodev := false } }
  else if opt = "nodiratime" then { b with flags := { b.flags with nodiratime := true } }
  else if opt = "diratime" then { b with flags := { b.flags with nodiratime := false } }
  else if opt = "noexec" then { b with flags := { b.flags with noexec := true } }
  else if opt = "exec" then { b with flags := { b.flags with noexec := false } }
  else if opt = "nosuid" then { b with flags := { b.flags with nosuid := true } }
  else if opt = "suid" then { b with flags := { b.flags with nosuid := false } }
  else if opt = "norelatime" then { b with flags := { b.flags with relatime := false } }
  else if opt = "relatime" then { b with flags := { b.flags with relatime := true } }
  else if opt = "silent" then { b with flags := { b.flags with silent := true } }
  else if opt = "nostrictatime" then { b with flags := { b.flags with strictatime := false } }
  else if opt = "strictatime" then { b with flags := { b.flags with strictatime := true } }
  else if opt = "async" then { b with flags := { b.flags with synchronous := false } }
  else if opt = "sync" then { b with flags := { b.flags with synchronous := true } }
  else if opt = "nosymfollow" then b
  else
    match b.options with
    | some options => { b with options := some (options ++ "," ++ opt) }
    | none => { b with options := some opt }

/-- `str::split(sep)` on character lists (`n` separators yield `n + 1`
pieces, so the empty string yields one empty piece). -/
def listSplitOn (sep : Char) : List Char → List (List Char)
  | [] => [[]]
  | c :: cs =>
      if c = sep then [] :: listSplitOn sep cs
      else
        match listSplitOn sep cs with
        | [] => [[c]]
        | p :: ps => (c :: p) :: ps

/-- `RootOptsBuilder::_add_opts`: interpret a comma-separated list. -/
def RootOptsBuilder.addOpts (b : RootOptsBuilder) (opts : String) : RootOptsBuilder :=
  ((listSplitOn ',' opts.data).map String.mk).foldl RootOptsBuilder.applyOpt b

/-- `RootOptsBuilder::try_build`.  In the source the arm
`(Some(source), Some(fstype))` evaluates `source.clone().build()`, and
`PartitionSourceBuilder::build` is `todo!("convert to device path")`.
Modelled from the spec: §4.3's `resolve()` — turning the tagged partition
source into an absolute `/dev/...` path by consulting `/sys` — is the
missing piece, abstracted here as the function argument `resolve` because
it depends on the machine's block-device state. -/
def RootOptsBuilder.tryBuild (resolve : PartitionSourceBuilder → String)
    (b : RootOptsBuilder) : Except RootOptsBuilder RootOpts :=
  match b.source, b.fstype with
  | some source, some fstype =>
      .ok { source := resolve source, fstype := fstype,
            flags := { b.flags with rdonly := !b.rw }, options := b.options }
  | _, _ => .error b

/-- The tokens recognized by `_add_opts`'s `match` (all arms except the
catch-all). -/
def recognizedRootflagTokens : List String :=
  ["dirsync", "nolazytime", "lazytime", "noatime", "atime", "nodev", "dev",
   "nodiratime", "diratime", "noexec", "exec", "nosuid", "suid", "norelatime",
   "relatime", "silent", "nostrictatime", "strictatime", "async", "sync",
   "nosymfollow"]

/-! ## Kernel module loading: `src/module.rs` (`ModParams`, `ModLoadingInner`,
`ModLoading`).  The `BTreeMap`s are modelled as association lists with unique
keys; a wait-group list attached to a loading module is modelled by the count
of its registered completion tokens; the kernel-facing effects of the worker
(`File::open` of the `.ko`, `finit_module`) are the environment `World`. -/

/-- `ModParams::normalize_module`: dashes become underscores. -/
def normalizeModule (m : String) : String :=
  String.mk (m.data.map (fun c => if c = '-' then '_' else c))

/-- `ModParams`: normalized module name to ordered `"key=value"` entries. -/
structure ModParams where
  params : List (String × List String)

/-- `ModParams::_get_params`. -/
def ModParams.getParams (mp : ModParams) (module : String) : List String :=
  (mp.params.lookup (normalizeModule module)).getD []

/-- `[str]::join(" ")`. -/
def joinSpace : List String → String
  | [] => ""
  | [x] => x
  | x :: xs => x ++ " " ++ joinSpace xs

/-- The `[metadata]` fields of `RuntimeConfig` consumed by the loader. -/
structure RuntimeConfigMeta where
  moduleBuiltin : List String
  moduleDeps : List (String × List String)
  moduleOpts : List (String × String)
  modulePostDeps : List (String × List String)

/-- A log entry emitted by a loader worker. -/
structure LogEntry where
  level : VerbosityLevel
  msg : String
  deriving DecidableEq, Repr

/-- The kernel-facing outcomes `ModLoading::finit` depends on: whether
`<modules-dir>/<m>.ko` opens and what the `finit_module` syscall returns. -/
structure World where
  koOpenOk : String → Bool
  finitModuleOk : String → Bool

namespace ModLoading

/-- The parameter string handed to `finit_module` in `ModLoading::finit`:
`module_opts[m]` (empty when absent), then `push_str(format!(" {}", join))`. -/
def finitParams (cfg : RuntimeConfigMeta) (mp : ModParams) (module : String) : String :=
  ((cfg.moduleOpts.lookup module).getD "") ++ " " ++ joinSpace (mp.getParams module)

/-- `ModLoading::finit`: open the `.ko`, build the parameter string, log the
`loading module` debug line, fail on an interior NUL (`CString::new`), then
invoke `finit_module`.  Returns success and the emitted log entries. -/
def finit (w : World) (cfg : RuntimeConfigMeta) (mp : ModParams) (module : String) :
    Bool × List LogEntry :=
  if w.koOpenOk module = false then (false, [])
  else
    let params := finitParams cfg mp module
    let logs : List LogEntry :=
      if params.isEmpty then [⟨.debug, "loading module " ++ module⟩]
      else [⟨.debug, "loading module " ++ module ++ " params=\"" ++ params ++ "\""⟩]
    if params.data.contains (Char.ofNat 0) then (false, logs)
    else (w.finitModuleOk module, logs)

/-- `ModLoadingInner`: the ledger guarded by the mutex.  `loaded` is the key
set of the `loaded` map; `loading` maps a module to the number of
completion tokens (cloned wait-groups) registered for it. -/
structure Inner where
  loaded : List String
  loading : List (String × Nat)
  deriving DecidableEq, Repr

/-- `Entry::Occupied` branch: push one more token for an already-loading
module. -/
def bumpLoading : List (String × Nat) → String → List (String × Nat)
  | [], _ => []
  | (k, n) :: rest, m => if k = m then (k, n + 1) :: rest else (k, n) :: bumpLoading rest m

/-- `ModLoading::load_modules_unlocked`.  Returns the updated ledger and the
modules for which a fresh worker thread was spawned, in spawn order.  `fuel`
bounds the pre-dependency recursion depth (the source recurses through
`module_deps`; a cyclic configuration, which the spec calls a configuration
bug, would recurse forever). -/
def loadModulesUnlocked (cfg : RuntimeConfigMeta) : Nat → List String → Inner →
    Inner × List String
  | 0, _, st => (st, [])
  | _ + 1, [], st => (st, [])
  | fuel + 1, module :: rest, st =>
      if st.loaded.contains module || cfg.moduleBuiltin.contains module then
        loadModulesUnlocked cfg fuel rest st
      else
        match st.loading.lookup module with
        | some _ =>
            loadModulesUnlocked cfg fuel rest
              { st with loading := bumpLoading st.loading module }
        | none =>
            let st1 := { st with loading := st.loading ++ [(module, 1)] }
            let depsRes :=
              loadModulesUnlocked cfg fuel ((cfg.moduleDeps.lookup module).getD []) st1
            let restRes := loadModulesUnlocked cfg fuel rest depsRes.1
            (restRes.1, depsRes.2 ++ module :: restRes.2)

/-- `ModLoading::load_module`, the worker body after `deps_wg.wait()`:
run `finit`; on success reacquire the ledger lock, remove the module from
`loading` (dropping the removed wait-groups releases every caller's
token), and submit the module's post-dependencies under the caller's
token; on failure (`Self::finit(...)?`) return the error immediately —
the ledger is untouched and no token is released.  Returns the updated
ledger, the modules spawned for post-dependencies, the log entries, and
success. -/
def loadModule (w : World) (cfg : RuntimeConfigMeta) (mp : ModParams) (module : String)
    (fuel : Nat) (st : Inner) : Inner × List String × List LogEntry × Bool :=
  if (finit w cfg mp module).1 = false then
    (st, [], (finit w cfg mp module).2, false)
  else
    let st1 := { st with loading := st.loading.filter (fun p => ¬ p.1 = module) }
    let postRes :=
      loadModulesUnlocked cfg fuel ((cfg.modulePostDeps.lookup module).getD []) st1
    (postRes.1, postRes.2, (finit w cfg mp module).2, true)

end ModLoading

/-! ## Old-ramfs deletion: `src/util.rs` (`delete_ramfs` and its inner
helpers).  The file system visible to `stat`/`read_dir`/`remove_*` is a
finite inode tree carrying each inode's `st_dev`; `read_dir` yields the
children of a directory and (on Linux, via Rust's `std::fs::read_dir`)
never yields the `.` and `..` entries. -/

mutual

/-- An inode with its `st_dev`: a regular file or a directory with named
children. -/
inductive FsNode where
  | file (dev : Nat)
  | dir (dev : Nat) (children : FsEntries)

/-- Directory entries: the listing `read_dir` would return, in order. -/
inductive FsEntries where
  | nil
  | cons (name : String) (node : FsNode) (rest : FsEntries)

end

/-- `stat.st_dev` of an inode. -/
def FsNode.dev : FsNode → Nat
  | .file d => d
  | .dir d _ => d

/-- Find a directory entry by name. -/
def FsEntries.lookupName : FsEntries → String → Option FsNode
  | .nil, _ => none
  | .cons name node rest, n => if name = n then some node else rest.lookupName n

/-- Resolve a path (list of components) from a root inode, as `stat` would. -/
def FsNode.lookupPath : FsNode → List String → Option FsNode
  | n, [] => some n
  | .file _, _ :: _ => none
  | .dir _ children, seg :: rest =>
      match children.lookupName seg with
      | some c => c.lookupPath rest
      | none => none

mutual

/-- `delete_recursive` from `delete_ramfs`: conserve inodes on another
device; for a directory, iterate the `read_dir` listing but recurse **only
into entries named `.` or `..`** (as the source's
`if entry.file_name() == "." || entry.file_name() == ".."` does), then
`remove_dir` unless the path is `/` (failing if the directory is still
non-empty); for a file, `remove_file` unless the path is `/`.  Returns the
surviving subtree (`none` when the inode was removed). -/
def deleteRecursive (rootDev : Nat) (isRoot : Bool) : FsNode → Except String (Option FsNode)
  | .file d =>
      if d ≠ rootDev then .ok (some (.file d))
      else if isRoot then .ok (some (.file d))
      else .ok none
  | .dir d children =>
      if d ≠ rootDev then .ok (some (.dir d children))
      else
        match deleteRecursiveEntries rootDev children with
        | .error e => .error e
        | .ok children2 =>
            if isRoot then .ok (some (.dir d children2))
            else
              match children2 with
              | .nil => .ok none
              | .cons _ _ _ => .error "unable to remove directory"

/-- The `for entry in path_dir_entries.flatten()` loop of
`delete_recursive`: entries named `.` or `..` are recursed into (and
dropped from the listing when the recursion removed them); every other
entry is left untouched. -/
def deleteRecursiveEntries (rootDev : Nat) : FsEntries → Except String FsEntries
  | .nil => .ok .nil
  | .cons name child rest =>
      if name = "." ∨ name = ".." then
        match deleteRecursive rootDev false child with
        | .error e => .error e
        | .ok r =>
            match deleteRecursiveEntries rootDev rest with
            | .error e => .error e
            | .ok rest2 =>
                .ok (match r with
                     | none => rest2
                     | some c => .cons name c rest2)
      else
        match deleteRecursiveEntries rootDev rest with
        | .error e => .error e
        | .ok rest2 => .ok (.cons name child rest2)

end

mutual

/-- Number of inodes in the tree whose `st_dev` equals `dev`. -/
def countDevNode (dev : Nat) : FsNode → Nat
  | .file d => if d = dev then 1 else 0
  | .dir d children => (if d = dev then 1 else 0) + countDevEntries dev children

/-- Number of inodes in the entries whose `st_dev` equals `dev`. -/
def countDevEntries (dev : Nat) : FsEntries → Nat
  | .nil => 0
  | .cons _ node rest => countDevNode dev node + countDevEntries dev rest

end

/-- `RAMFS_MAGIC` from `statfs(2)`. -/
def RAMFS_MAGIC : Nat := 0x858458f6

/-- `TMPFS_MAGIC` (`nix::sys::statfs::TMPFS_MAGIC`). -/
def TMPFS_MAGIC : Nat := 0x01021994

/-- The machine state `delete_ramfs` observes: the PID of the calling
process, the `/` inode tree, and `statfs("/").f_type`. -/
structure SysState where
  pid : Nat
  root : FsNode
  rootStatfsType : Nat

/-- `exists_in_root` from `delete_ramfs`: stat the path and require it to
live on the old root device. -/
def existsInRoot (root : FsNode) (path : List String) (rootDev : Nat) : Except String Unit :=
  match root.lookupPath path with
  | none => .error "unable to stat"
  | some n => if n.dev ≠ rootDev then .error "is not in our current initramfs" else .ok ()

/-- `full_sanity_check` from `delete_ramfs`: PID is 1, `/system_root` is on
a different device than `/`, `/etc/initrd-release`, the config file and
`/init` are on the old root device, and `/` is `ramfs` or `tmpfs`.
Returns the old root device number. -/
def fullSanityCheck (s : SysState) : Except String Nat :=
  if s.pid ≠ 1 then .error "not running in an initrd environment, exiting..."
  else
    match s.root.lookupPath ["system_root"] with
    | none => .error "unable to stat /system_root"
    | some newRoot =>
        if newRoot.dev = s.root.dev then
          .error "/ and /system_root belong to the same device"
        else
          match existsInRoot s.root ["etc", "initrd-release"] s.root.dev with
          | .error e => .error e
          | .ok _ =>
          match existsInRoot s.root ["etc", "ignited", "engine.toml"] s.root.dev with
          | .error e => .error e
          | .ok _ =>
          match existsInRoot s.root ["init"] s.root.dev with
          | .error e => .error e
          | .ok _ =>
              if s.rootStatfsType ≠ RAMFS_MAGIC ∧ s.rootStatfsType ≠ TMPFS_MAGIC then
                .error "/ should still be initramfs, but is not of type ramfs/tmpfs"
              else .ok s.root.dev

/-- `delete_ramfs`: full sanity check, then `delete_recursive(Path::new("/"),
root_dev)`. -/
def deleteRamfs (s : SysState) : Except String (Option FsNode) :=
  match fullSanityCheck s with
  | .error e => .error e
  | .ok rootDev => deleteRecursive rootDev true s.root



theorem tryFrom_empty : VerbosityLevel.tryFrom "" = none := by decide

theorem filterMap_tryFrom_filter_nonempty (l : List String) :
    (l.filter (fun v => !v.isEmpty)).filterMap VerbosityLevel.tryFrom =
      l.filterMap VerbosityLevel.tryFrom := by
  induction l with
  | nil => rfl
  | cons v tl ih =>
      by_cases h : v.isEmpty
      · have hv : v = "" := (String.isEmpty_iff v).mp h
        subst hv
        simpa [List.filter_cons, List.filterMap_cons, tryFrom_empty] using ih
      · simp [List.filter_cons, List.filterMap_cons, h, ih]

theorem foldl_getOrInsert (items : List String) (st : Option VerbosityLevel) :
    (items.foldl (fun s v =>
        match VerbosityLevel.tryFrom v with
        | some level => optGetOrInsert s level
        | none => s) st) =
      (match st with
       | some x => some x
       | none => (items.filterMap VerbosityLevel.tryFrom).head?) := by
  induction items generalizing st with
  | nil => cases st <;> rfl
  | cons v tl ih =>
      rw [List.foldl_cons, ih]
      cases hv : VerbosityLevel.tryFrom v with
      | none => cases st <;> simp [hv, optGetOrInsert, List.filterMap_cons]
      | some l => cases st <;> simp [hv, optGetOrInsert, List.filterMap_cons]

/-- An established level is never overwritten: every handler goes through
`Option::get_or_insert`. -/
theorem stepVerbosity_some (l : VerbosityLevel) (arg : String) :
    stepVerbosity (some l) arg = some l := by
  rcases hkv : cmdlineKeyValue arg with ⟨key, val⟩
  unfold stepVerbosity
  rw [hkv]
  dsimp only
  by_cases h1 : key = "ignited.log"
  · rw [if_pos h1]
    cases val with
    | none => rfl
    | some s =>
        have hred : parseIgnitedLogLevel (some l) (some s) false =
            (match VerbosityLevel.tryFrom s with
             | some level => optGetOrInsert (some l) level
             | none => some l) := rfl
        rw [hred]
        cases hts : VerbosityLevel.tryFrom s <;> rfl
  · rw [if_neg h1]
    by_cases h2 : key = "booster.log"
    · rw [if_pos h2]
      cases val with
      | none => rfl
      | some s =>
          have hred : parseIgnitedLogLevel (some l) (some s) true =
              ((s.splitOn ",").filter (fun v => !v.isEmpty)).foldl (fun s v =>
                match VerbosityLevel.tryFrom v with
                | some level => optGetOrInsert s level
                | none => s) (some l) := rfl
          rw [hred, foldl_getOrInsert]
    · rw [if_neg h2]
      by_cases h3 : key = "booster.debug"
      · rw [if_pos h3]; rfl
      · rw [if_neg h3]
        by_cases h4 : key = "quiet"
        · rw [if_pos h4]; rfl
        · rw [if_neg h4]

/-- Starting from no established level, one loop iteration installs exactly
the level carried by the token. -/
theorem stepVerbosity_none (arg : String) :
    stepVerbosity none arg = specTokenLevel arg := by
  rcases hkv : cmdlineKeyValue arg with ⟨key, val⟩
  unfold stepVerbosity specTokenLevel
  rw [hkv]
  dsimp only
  by_cases h1 : key = "ignited.log"
  · rw [if_pos h1, if_pos h1]
    cases val with
    | none => rfl
    | some s =>
        have hred : parseIgnitedLogLevel none (some s) false =
            (match VerbosityLevel.tryFrom s with
             | some level => optGetOrInsert none level
             | none => none) := rfl
        rw [hred]
        show _ = VerbosityLevel.tryFrom s
        cases hts : VerbosityLevel.tryFrom s <;> rfl
  · rw [if_neg h1, if_neg h1]
    by_cases h2 : key = "booster.log"
    · rw [if_pos h2, if_pos h2]
      cases val with
      | none => rfl
      | some s =>
          have hred : parseIgnitedLogLevel none (some s) true =
              ((s.splitOn ",").filter (fun v => !v.isEmpty)).foldl (fun s v =>
                match VerbosityLevel.tryFrom v with
                | some level => optGetOrInsert s level
                | none => s) none := rfl
          rw [hred, foldl_getOrInsert]
          exact congrArg List.head? (filterMap_tryFrom_filter_nonempty _)
    · rw [if_neg h2, if_neg h2]
      by_cases h3 : key = "booster.debug"
      · rw [if_pos h3, if_pos h3]; rfl
      · rw [if_neg h3, if_neg h3]
        by_cases h4 : key = "quiet"
        · rw [if_pos h4, if_pos h4]; rfl
        · rw [if_neg h4, if_neg h4]

theorem foldl_stepVerbosity (tokens : List String) (st : Option VerbosityLevel) :
    tokens.foldl stepVerbosity st =
      (match st with
       | some x => some x
       | none => (tokens.filterMap specTokenLevel).head?) := by
  induction tokens generalizing st with
  | nil => cases st <;> rfl
  | cons t tl ih =>
      rw [List.foldl_cons, ih]
      cases st with
      | some x => rw [stepVerbosity_some]
      | none =>
          rw [stepVerbosity_none]
          cases ht : specTokenLevel t <;> simp [List.filterMap_cons, ht]

/-- C5: For every ordered sequence of command-line tokens containing any
mixture of the verbosity-setting keys `ignited.log=<level>`,
`booster.log=<list>`, `booster.debug` and `quiet`, the threshold committed
at the end of parsing is the one established by the first token carrying a
valid level (`quiet` counts as `Err`, `booster.debug` as `Debug`; absent
any such token the default `Info` is committed), and every later
verbosity-setting token leaves the established level unchanged. -/
theorem cmdline_verbosity_first_wins :
    (∀ tokens : List String,
      committedVerbosity tokens =
        ((tokens.filterMap specTokenLevel).head?).getD VerbosityLevel.defaultLevel) ∧
    (∀ (l : VerbosityLevel) (arg : String), stepVerbosity (some l) arg = some l) := by
  constructor
  · intro tokens
    unfold committedVerbosity
    rw [foldl_stepVerbosity]
  · intro l arg
    exact stepVerbosity_some l arg

/-- Draining a queue through `KConsole::println` never changes the
threshold and appends exactly the entries passing the threshold, in
arrival order. -/
theorem foldl_println (entries : List KmsgBufEntry) (k : KConsole) :
    (entries.foldl (fun k e => k.println e.level e.args) k).currentLevel = k.currentLevel ∧
    (entries.foldl (fun k e => k.println e.level e.args) k).written =
      k.written ++ (entries.filter (fun e => e.level.toU8 ≤ k.currentLevel.toU8)).map
        (fun e => kmsgLine e.level e.args) := by
  induction entries generalizing k with
  | nil => exact ⟨rfl, by simp⟩
  | cons e tl ih =>
      rw [List.foldl_cons]
      obtain ⟨ihLevel, ihWritten⟩ := ih (k.println e.level e.args)
      have hLevel : (k.println e.level e.args).currentLevel = k.currentLevel := by
        unfold KConsole.println
        split <;> rfl
      constructor
      · rw [ihLevel, hLevel]
      · rw [ihWritten, hLevel]
        by_cases h : e.level.toU8 ≤ k.currentLevel.toU8
        · have : (k.println e.level e.args).written = k.written ++ [kmsgLine e.level e.args] := by
            unfold KConsole.println
            rw [if_pos h]
          rw [this, List.filter_cons_of_pos (by simpa using h), List.map_cons, List.append_assoc]
          rfl
        · have : (k.println e.level e.args).written = k.written := by
            unfold KConsole.println
            rw [if_neg h]
          rw [this, List.filter_cons_of_neg (by simpa using h)]

/-- C7: `flush_with_level(L)` first commits the threshold `L` on the wrapped
sink, marks the buffer flushed, and emits the queued entries in exactly
their arrival (FIFO) order, each filtered by the new threshold `L`; every
entry logged after the flush bypasses the queue and is forwarded directly
to the sink. -/
theorem kmsgbuf_flush_fifo_then_direct (b : KmsgBuf) (L : VerbosityLevel) :
    (b.flushWithLevel L).innerCon.currentLevel = L ∧
    (b.flushWithLevel L).innerCon.written =
      b.innerCon.written ++
        (b.innerBuf.filter (fun e => e.level.toU8 ≤ L.toU8)).map
          (fun e => kmsgLine e.level e.args) ∧
    (b.flushWithLevel L).innerBuf = [] ∧
    (b.flushWithLevel L).flushed = true ∧
    ∀ (lvl : VerbosityLevel) (args : String),
      ((b.flushWithLevel L).kany lvl args).innerCon =
          ((b.flushWithLevel L).innerCon).println lvl args ∧
      ((b.flushWithLevel L).kany lvl args).innerBuf = [] := by
  obtain ⟨hLevel, hWritten⟩ := foldl_println b.innerBuf (b.innerCon.changeVerbosity L)
  refine ⟨hLevel, ?_, rfl, rfl, ?_⟩
  · exact hWritten
  · intro lvl args
    constructor <;> rfl

/-- C8: an entry with level `L` and message `M` submitted to a sink with
threshold `T` is written to `/dev/kmsg` iff `L ≤ T` in the numeric
discriminant order (`Debug=7 > Info=6 > Notice=5 > Warn=4 > Err=3 >
Crit=2`), and the emitted bytes are exactly
`"<" ++ decimal(L) ++ ">ignited: " ++ M ++ "\n"`. -/
theorem kconsole_println_threshold (k : KConsole) (L : VerbosityLevel) (M : String) :
    (k.println L M).written =
      k.written ++ (if L.toU8 ≤ k.currentLevel.toU8 then [kmsgLine L M] else []) ∧
    kmsgLine L M = "<" ++ toString L.toU8 ++ ">ignited: " ++ M ++ "\n" ∧
    ((k.println L M).written ≠ k.written ↔ L.toU8 ≤ k.currentLevel.toU8) := by
  refine ⟨?_, ?_, ?_⟩
  · unfold KConsole.println
    split <;> simp
  · unfold kmsgLine PROGRAM_NAME
    simp only [String.append_assoc]
    congr 2
  · unfold KConsole.println
    by_cases h : L.toU8 ≤ k.currentLevel.toU8
    · rw [if_pos h]
      simp [h]
    · rw [if_neg h]
      simp [h]

theorem foldl_matchAlias (l : List ModAlias) (alias_ : String) (acc : List String) :
    (l.foldl (fun acc a =>
        match a.matchAlias alias_ with
        | some m => acc ++ [m]
        | none => acc) acc) =
      acc ++ l.filterMap (fun a => a.matchAlias alias_) := by
  induction l generalizing acc with
  | nil => simp
  | cons a tl ih =>
      rw [List.foldl_cons]
      cases h : a.matchAlias alias_ with
      | none => rw [ih, List.filterMap_cons, h]
      | some m => rw [ih, List.filterMap_cons, h, List.append_assoc]; rfl

/-- C9: the first call to `match_alias(a, out)` appends to `out` the module
of every table entry whose pattern matches `a`, in table order; any
subsequent call with the same alias string appends nothing and leaves the
output vector unchanged. -/
theorem modaliases_match_once (ma : ModAliases) (alias_ : String) (out : List String)
    (h : ma.bookkeepingProcessed.contains alias_ = false) :
    (ma.matchAlias alias_ out).2 = out ++ ma.matchingModules alias_ ∧
    (ma.matchAlias alias_ out).1.bookkeepingProcessed = alias_ :: ma.bookkeepingProcessed ∧
    (ma.matchAlias alias_ out).1.aliases = ma.aliases ∧
    ∀ out2 : List String,
      ((ma.matchAlias alias_ out).1.matchAlias alias_ out2).2 = out2 ∧
      ((ma.matchAlias alias_ out).1.matchAlias alias_ out2).1.bookkeepingProcessed =
        alias_ :: ma.bookkeepingProcessed := by
  unfold ModAliases.matchAlias
  rw [h]
  refine ⟨?_, rfl, rfl, ?_⟩
  · simp only [Bool.false_eq_true, if_false]
    rw [foldl_matchAlias]
    rfl
  · intro out2
    have hmem : (alias_ :: ma.bookkeepingProcessed).contains alias_ = true := by
      simp [List.contains_cons]
    simp [hmem]

/-- Witness for `modaliases_match_once` at a concrete two-entry table. -/
theorem modaliases_match_once_witness :
    (let table : ModAliases :=
      { bookkeepingProcessed := ["old"],
        aliases :=
          [{ patternMatches := fun s => s = "usb:123", module := "usbhid" },
           { patternMatches := fun _ => false, module := "never" },
           { patternMatches := fun s => s = "usb:123", module := "xhci" }] }
     (table.matchAlias "usb:123" ["pre"]).2 = ["pre", "usbhid", "xhci"] ∧
     ∀ out2 : List String,
       ((table.matchAlias "usb:123" ["pre"]).1.matchAlias "usb:123" out2).2 = out2) := by
  intro table
  have h : table.bookkeepingProcessed.contains "usb:123" = false := by
    simp [table, List.contains_cons]
  obtain ⟨h1, _, _, h4⟩ := modaliases_match_once table "usb:123" ["pre"] h
  constructor
  · rw [h1]
    rfl
  · intro out2
    exact (h4 out2).1

/-- C2 counterexample: `parse` accepts `UUID=<u>` but rejects
`/dev/disk/by-uuid/<u>` for the very same valid UUID `u`: the source strips
the prefix `"/dev/disk/by-uuid"` without the trailing slash, so the residue
`"/<u>"` starts with `/` and fails UUID parsing, contradicting the claim
(and the function's own documentation, which promises the
`/dev/disk/by-uuid/<uuid>` form is recognized as a partition UUID). -/
theorem partition_parse_by_uuid_slash_bug :
    PartitionSourceBuilder.parse "UUID=e0805d9f-8660-431d-9cfd-134161a9f1c1" =
      some (.uuid [14, 0, 8, 0, 5, 13, 9, 15, 8, 6, 6, 0, 4, 3, 1, 13,
        9, 12, 15, 13, 1, 3, 4, 1, 6, 1, 10, 9, 15, 1, 12, 1]) ∧
    PartitionSourceBuilder.parse "/dev/disk/by-uuid/e0805d9f-8660-431d-9cfd-134161a9f1c1" =
      none := by
  constructor <;> rfl

/-- C6: for every comma-separated token, `add_opts` sets or clears exactly
the flag bit of the spec's table (`nosymfollow` is ignored), appends every
unrecognized token to the free-form options string, `try_build` reflects
the negation of the `rw` flag as the `RDONLY` bit, and
`add_opts("nosuid,nodev,discard")` on a fresh builder yields flags
`NOSUID|NODEV` with free-form options `"discard"`. -/
theorem rootopts_addopts_table (b : RootOptsBuilder) (t : String)
    (ht : t ∉ recognizedRootflagTokens)
    (resolve : PartitionSourceBuilder → String)
    (hs : b.source.isSome = true) (hf : b.fstype.isSome = true) :
    b.applyOpt "dirsync" = { b with flags := { b.flags with dirsync := true } } ∧
    b.applyOpt "nolazytime" = { b with flags := { b.flags with lazytime := false } } ∧
    b.applyOpt "lazytime" = { b with flags := { b.flags with lazytime := true } } ∧
    b.applyOpt "noatime" = { b with flags := { b.flags with noatime := true } } ∧
    b.applyOpt "atime" = { b with flags := { b.flags with noatime := false } } ∧
    b.applyOpt "nodev" = { b with flags := { b.flags with nodev := true } } ∧
    b.applyOpt "dev" = { b with flags := { b.flags with nodev := false } } ∧
    b.applyOpt "nodiratime" = { b with flags := { b.flags with nodiratime := true } } ∧
    b.applyOpt "diratime" = { b with flags := { b.flags with nodiratime := false } } ∧
    b.applyOpt "noexec" = { b with flags := { b.flags with noexec := true } } ∧
    b.applyOpt "exec" = { b with flags := { b.flags with noexec := false } } ∧
    b.applyOpt "nosuid" = { b with flags := { b.flags with nosuid := true } } ∧
    b.applyOpt "suid" = { b with flags := { b.flags with nosuid := false } } ∧
    b.applyOpt "norelatime" = { b with flags := { b.flags with relatime := false } } ∧
    b.applyOpt "relatime" = { b with flags := { b.flags with relatime := true } } ∧
    b.applyOpt "silent" = { b with flags := { b.flags with silent := true } } ∧
    b.applyOpt "nostrictatime" = { b with flags := { b.flags with strictatime := false } } ∧
    b.applyOpt "strictatime" = { b with flags := { b.flags with strictatime := true } } ∧
    b.applyOpt "async" = { b with flags := { b.flags with synchronous := false } } ∧
    b.applyOpt "sync" = { b with flags := { b.flags with synchronous := true } } ∧
    b.applyOpt "nosymfollow" = b ∧
    b.applyOpt t =
      (match b.options with
       | some options => { b with options := some (options ++ "," ++ t) }
       | none => { b with options := some t }) ∧
    ((b.tryBuild resolve).toOption.map (fun r => r.flags.rdonly)) = some (!b.rw) ∧
    RootOptsBuilder.defaultBuilder.addOpts "nosuid,nodev,discard" =
      { RootOptsBuilder.defaultBuilder with
          flags := { MsFlags.emptyFlags with nosuid := true, nodev := true },
          options := some "discard" } := by
  simp only [recognizedRootflagTokens, List.mem_cons, List.not_mem_nil, or_false,
    not_or] at ht
  obtain ⟨h1, h2, h3, h4, h5, h6, h7, h8, h9, h10, h11, h12, h13, h14, h15, h16,
    h17, h18, h19, h20, h21⟩ := ht
  refine ⟨rfl, rfl, rfl, rfl, rfl, rfl, rfl, rfl, rfl, rfl, rfl, rfl, rfl, rfl,
    rfl, rfl, rfl, rfl, rfl, rfl, rfl, ?_, ?_, by rfl⟩
  · unfold RootOptsBuilder.applyOpt
    rw [if_neg h1, if_neg h2, if_neg h3, if_neg h4, if_neg h5, if_neg h6, if_neg h7,
      if_neg h8, if_neg h9, if_neg h10, if_neg h11, if_neg h12, if_neg h13, if_neg h14,
      if_neg h15, if_neg h16, if_neg h17, if_neg h18, if_neg h19, if_neg h20, if_neg h21]
  · cases hsrc : b.source with
    | none => rw [hsrc] at hs; simp at hs
    | some ps =>
        cases hft : b.fstype with
        | none => rw [hft] at hf; simp at hf
        | some ft =>
            unfold RootOptsBuilder.tryBuild
            rw [hsrc, hft]
            rfl

/-- Witness for `rootopts_addopts_table`: concrete builder, the
unrecognized token `"discard"`, and a concrete resolver. -/
theorem rootopts_addopts_table_witness :
    ("discard" ∉ recognizedRootflagTokens) ∧
    ((RootOptsBuilder.tryBuild (fun _ => "/dev/sda1")
        { source := some (.rawDevice "/dev/sda1"), fstype := some "ext4",
          rw := true, flags := MsFlags.emptyFlags, options := none }).toOption.map
        (fun r => r.flags.rdonly)) = some false ∧
    RootOptsBuilder.defaultBuilder.addOpts "nosuid,nodev,discard" =
      { RootOptsBuilder.defaultBuilder with
          flags := { MsFlags.emptyFlags with nosuid := true, nodev := true },
          options := some "discard" } := by
  have h := rootopts_addopts_table
      { source := some (.rawDevice "/dev/sda1"), fstype := some "ext4",
        rw := true, flags := MsFlags.emptyFlags, options := none }
      "discard" (by decide) (fun _ => "/dev/sda1") rfl rfl
  obtain ⟨-, -, -, -, -, -, -, -, -, -, -, -, -, -, -, -, -, -, -, -, -, -,
    h23, h24⟩ := h
  exact ⟨by decide, h23, h24⟩

/-- The space-separated concatenation is never the empty string. -/
theorem append_space_ne_empty (a b : String) : (a ++ " " ++ b).isEmpty = false := by
  rw [Bool.eq_false_iff]
  intro h
  have h2 := (String.isEmpty_iff _).mp h
  have h3 := congrArg String.data h2
  rw [String.data_append, String.data_append] at h3
  simp at h3

/-- C10: the parameter string handed to `finit_module` for module `m` is
`module_opts[m]` (`""` when absent) followed by one space and the
space-joined `ModParams` entries of `m`; it is never empty (it always
contains at least the separating space), so whenever the `.ko` file opens,
the `loading module` log line taken is always the non-empty-params branch. -/
theorem finit_params_never_empty (cfg : RuntimeConfigMeta) (mp : ModParams) (m : String)
    (w : World) (hopen : w.koOpenOk m = true) :
    ModLoading.finitParams cfg mp m =
      ((cfg.moduleOpts.lookup m).getD "") ++ " " ++ joinSpace (mp.getParams m) ∧
    (ModLoading.finitParams cfg mp m).isEmpty = false ∧
    (ModLoading.finit w cfg mp m).2 =
      [⟨.debug, "loading module " ++ m ++ " params=\"" ++
        ModLoading.finitParams cfg mp m ++ "\""⟩] := by
  refine ⟨rfl, append_space_ne_empty _ _, ?_⟩
  unfold ModLoading.finit
  rw [hopen]
  have hne : (ModLoading.finitParams cfg mp m).isEmpty = false := append_space_ne_empty _ _
  simp only [Bool.true_eq_false, if_false, hne, Bool.false_eq_true]
  split <;> rfl

/-- Every log entry a loader worker emits is at Debug level: the only
logging in `ModLoading::finit` is the `kdebug!("loading module …")` line,
and `ModLoading::load_module` adds none. -/
theorem finit_logs_debug (w : World) (cfg : RuntimeConfigMeta) (mp : ModParams) (m : String) :
    ∀ e ∈ (ModLoading.finit w cfg mp m).2, e.level = .debug := by
  intro e he
  unfold ModLoading.finit at he
  split at he
  · simp at he
  · dsimp only at he
    split at he <;> dsimp only at he <;> split at he <;>
      simp only [List.mem_singleton] at he <;> rw [he]

/-- C1 counterexample: `load_module` removes a successfully loaded module
from `loading` but never inserts it into `loaded` (the `loaded` map is read
in `load_modules_unlocked` yet written nowhere in the source), so a second
`load_modules(["mymod"])` call issued after the first worker finished
spawns a second worker: `finit_module` runs twice for the same module name
within one process lifetime. -/
theorem module_finit_runs_twice :
    (let cfg : RuntimeConfigMeta := ⟨[], [], [], []⟩
     let w : World := ⟨fun _ => true, fun _ => true⟩
     let mp : ModParams := ⟨[]⟩
     let r1 := ModLoading.loadModulesUnlocked cfg 8 ["mymod"] ⟨[], []⟩
     let r2 := ModLoading.loadModule w cfg mp "mymod" 8 r1.1
     let r3 := ModLoading.loadModulesUnlocked cfg 8 ["mymod"] r2.1
     r1.2 = ["mymod"] ∧
     (ModLoading.finit w cfg mp "mymod").1 = true ∧
     r2.2.2.2 = true ∧
     r2.1.loaded = [] ∧
     r2.1.loading = [] ∧
     r3.2 = ["mymod"]) := by
  exact ⟨rfl, rfl, rfl, rfl, rfl, rfl⟩

/-- C4 (amended): when `ModLoading::finit` fails for module `m` — the
`.ko` cannot be opened, the parameter string has an interior NUL, or
`finit_module` returns an error — the worker returns before touching the
ledger: no completion token of `m` is released, `m` stays in `loading`
with its token count intact, no post-dependency worker is spawned, and the
orchestrator is not aborted; no critical-level message is logged — the
error value is discarded when the worker thread exits, and the only
entries emitted are at Debug level. -/
theorem module_load_failure_no_release (w : World) (cfg : RuntimeConfigMeta)
    (mp : ModParams) (module : String) (fuel : Nat) (st : ModLoading.Inner)
    (hfail : (ModLoading.finit w cfg mp module).1 = false) :
    (ModLoading.loadModule w cfg mp module fuel st).1 = st ∧
    (ModLoading.loadModule w cfg mp module fuel st).2.1 = [] ∧
    (ModLoading.loadModule w cfg mp module fuel st).2.2.2 = false ∧
    ∀ e ∈ (ModLoading.loadModule w cfg mp module fuel st).2.2.1, e.level = .debug := by
  unfold ModLoading.loadModule
  rw [if_pos hfail]
  exact ⟨rfl, rfl, rfl, finit_logs_debug w cfg mp module⟩

/-- Witness for `module_load_failure_no_release`: the `.ko` of `"mymod"`
fails to open while one caller token is registered. -/
theorem module_load_failure_no_release_witness :
    ((ModLoading.finit ⟨fun _ => false, fun _ => true⟩ ⟨[], [], [], []⟩ ⟨[]⟩
        "mymod").1 = false) ∧
    (ModLoading.loadModule ⟨fun _ => false, fun _ => true⟩ ⟨[], [], [], []⟩ ⟨[]⟩
        "mymod" 8 ⟨[], [("mymod", 1)]⟩).1 = ⟨[], [("mymod", 1)]⟩ :=
  ⟨rfl, (module_load_failure_no_release ⟨fun _ => false, fun _ => true⟩ ⟨[], [], [], []⟩
    ⟨[]⟩ "mymod" 8 ⟨[], [("mymod", 1)]⟩ rfl).1⟩

/-- C4 counterexample: at a concrete failing input (the `.ko` of `"mymod"`
does not open, one caller token registered) the worker leaves the ledger
untouched and emits an empty log — in particular **no critical-level
message** is logged, contrary to the claim's "logs a critical-level
message" (the constructed error is silently dropped with the worker
thread). -/
theorem module_load_failure_logs_nothing :
    ModLoading.loadModule ⟨fun _ => false, fun _ => true⟩ ⟨[], [], [], []⟩ ⟨[]⟩
        "mymod" 8 ⟨[], [("mymod", 1)]⟩ =
      (⟨[], [("mymod", 1)]⟩, [], [], false) := by
  rfl

/-- Witness for `finit_params_never_empty` at a concrete configuration. -/
theorem finit_params_never_empty_witness :
    ((⟨fun _ => true, fun _ => true⟩ : World).koOpenOk "amdgpu" = true) ∧
    (ModLoading.finitParams ⟨[], [], [("amdgpu", "opt1")], []⟩ ⟨[("amdgpu", ["dpm=0"])]⟩
        "amdgpu").isEmpty = false ∧
    (ModLoading.finit ⟨fun _ => true, fun _ => true⟩ ⟨[], [], [("amdgpu", "opt1")], []⟩
        ⟨[("amdgpu", ["dpm=0"])]⟩ "amdgpu").2 =
      [⟨.debug, "loading module amdgpu params=\"opt1 dpm=0\""⟩] := by
  have h := finit_params_never_empty ⟨[], [], [("amdgpu", "opt1")], []⟩
    ⟨[("amdgpu", ["dpm=0"])]⟩ "amdgpu" ⟨fun _ => true, fun _ => true⟩ rfl
  exact ⟨rfl, h.2.1, by rw [h.2.2]; rfl⟩

/-- C3 counterexample: on a well-formed initramfs (PID 1, `/` of type
`ramfs` on device 1 holding `/etc/initrd-release`, the config file and
`/init`, with `/system_root` on device 2) the sanity check passes and
`delete_ramfs` returns `Ok` — but it deletes **nothing**: the loop in
`delete_recursive` recurses only into entries named `.` or `..`, which
`read_dir` never yields, so the tree survives unchanged and 6 inodes on
the old root device remain, contradicting the claim that zero inodes owned
by the old root device remain after `Ok`. -/
theorem delete_ramfs_deletes_nothing :
    (let root : FsNode :=
      .dir 1 (.cons "etc"
        (.dir 1 (.cons "initrd-release" (.file 1)
          (.cons "ignited" (.dir 1 (.cons "engine.toml" (.file 1) .nil)) .nil)))
        (.cons "init" (.file 1)
          (.cons "system_root" (.dir 2 .nil) .nil)))
     let s : SysState := { pid := 1, root := root, rootStatfsType := RAMFS_MAGIC }
     deleteRamfs s = .ok (some root) ∧ countDevNode 1 root = 6 ∧ 0 < countDevNode 1 root) := by
  exact ⟨rfl, rfl, by decide⟩

end Ignited
